import Mathlib

/-!
Verification of the stream registry, torrent file selection, watchdog,
packager retry and HTTP serving logic of the torrent-to-HLS gateway
(src/services/streamManager.js, src/services/torrentService.js,
src/services/fileService.js, src/services/ffmpegService.js,
src/services/cleanupService.js).

JavaScript numbers are modelled as Int (timestamps, progress values) or
Nat (byte counts); the JS Map holding the registry is modelled as an
association list with JS Map insertion-order semantics (set replaces in
place, otherwise appends; get returns the value of the first matching
key; delete removes the entry).
-/

namespace PlayGateway

/-- Stream status strings used by the registry
(src/services/streamManager.js). -/
inductive Status where
  | initializing
  | downloading
  | converting
  | waitingForData
  | ready
  | error
deriving DecidableEq, Repr

/-- A registry entry, mirroring the object literal built by
StreamManager.createStream (src/services/streamManager.js lines 6-23). -/
structure StreamRec where
  id : String
  magnetUrl : String
  status : Status
  progress : Int
  errorMsg : Option String
  createdAt : Int
  updatedAt : Int
  accessCount : Nat
  lastAccessed : Int
deriving DecidableEq, Repr

/-- The in-memory stream registry: the JS Map of StreamManager. -/
abbrev Registry := List (String × StreamRec)

/-- Map.get: value of the first entry with the given key. -/
def regGet? (r : Registry) (id : String) : Option StreamRec :=
  (r.find? (fun p => p.1 == id)).map (fun p => p.2)

/-- Map.set: replace the entry in place if the key is present, otherwise
append at the end (JS Map insertion-order semantics; keys are unique
because set always replaces an existing key). -/
def regSet : Registry → String → StreamRec → Registry
  | [], id, s => [(id, s)]
  | p :: ps, id, s => if p.1 == id then (id, s) :: ps else p :: regSet ps id s

/-- StreamManager.createStream: status initializing, progress 0,
timestamps now (src/services/streamManager.js lines 6-23). -/
def createStream (r : Registry) (id magnet : String) (now : Int) : Registry :=
  regSet r id
    { id := id, magnetUrl := magnet, status := Status.initializing,
      progress := 0, errorMsg := none, createdAt := now, updatedAt := now,
      accessCount := 0, lastAccessed := now }

/-- StreamManager.updateStreamStatus: a no-op when the id is absent
(src/services/streamManager.js lines 33-42). -/
def updateStreamStatus (r : Registry) (id : String) (st : Status)
    (err : Option String) (now : Int) : Registry :=
  match regGet? r id with
  | some s => regSet r id { s with status := st, errorMsg := err, updatedAt := now }
  | none => r

/-- Math.max(0, Math.min(100, progress)) from updateStreamProgress. -/
def clampProgress (p : Int) : Int := max 0 (min 100 p)

/-- StreamManager.updateStreamProgress: clamps to [0, 100]; a no-op when
the id is absent (src/services/streamManager.js lines 44-55). -/
def updateStreamProgress (r : Registry) (id : String) (p : Int) (now : Int) : Registry :=
  match regGet? r id with
  | some s => regSet r id { s with progress := clampProgress p, updatedAt := now }
  | none => r

/-- StreamManager.keepStreamAlive: bumps timestamps and access counter,
returning true when the stream exists and false otherwise
(src/services/streamManager.js lines 132-142). -/
def keepStreamAlive (r : Registry) (id : String) (now : Int) : Registry × Bool :=
  match regGet? r id with
  | some s =>
      (regSet r id
        { s with updatedAt := now, lastAccessed := now,
                 accessCount := s.accessCount + 1 }, true)
  | none => (r, false)

/-- StreamManager.removeStream: Map.delete, returning whether an entry
was removed (src/services/streamManager.js lines 57-63). -/
def removeStream (r : Registry) (id : String) : Registry × Bool :=
  (r.filter (fun p => !(p.1 == id)), r.any (fun p => p.1 == id))

/-- StreamManager.getOldStreams: streams whose age exceeds the bound,
excluding those whose status is downloading or converting
(src/services/streamManager.js lines 69-83). -/
def getOldStreams (r : Registry) (now : Int) (maxAgeMinutes : Int) : List StreamRec :=
  (r.map (fun p => p.2)).filter (fun s =>
    decide (now - s.updatedAt > maxAgeMinutes * 60 * 1000) &&
    !(s.status == Status.downloading || s.status == Status.converting))

/-! Basic association-list lemmas for the registry. -/

theorem regGet?_regSet_self (r : Registry) (id : String) (s : StreamRec) :
    regGet? (regSet r id s) id = some s := by
  induction r with
  | nil => simp [regGet?, regSet, List.find?]
  | cons p ps ih =>
    by_cases hp : p.1 = id
    · have hb : (p.1 == id) = true := by simp [hp]
      simp [regGet?, regSet, hb, List.find?]
    · have hb : (p.1 == id) = false := by simp [hp]
      simpa [regGet?, regSet, hb, List.find?_cons, hb] using ih

theorem mem_regSet {r : Registry} {id : String} {s : StreamRec} {q : String × StreamRec}
    (h : q ∈ regSet r id s) : q = (id, s) ∨ q ∈ r := by
  induction r with
  | nil =>
    simp [regSet] at h
    left; exact h
  | cons p ps ih =>
    by_cases hp : p.1 = id
    · have hb : (p.1 == id) = true := by simp [hp]
      simp only [regSet, hb, if_true, List.mem_cons] at h
      rcases h with h | h
      · left; exact h
      · right; exact List.mem_cons_of_mem _ h
    · have hb : (p.1 == id) = false := by simp [hp]
      simp only [regSet, hb, Bool.false_eq_true, if_false, List.mem_cons] at h
      rcases h with h | h
      · right; exact h ▸ List.mem_cons_self _ _
      · rcases ih h with h2 | h2
        · left; exact h2
        · right; exact List.mem_cons_of_mem _ h2

theorem regGet?_mem {r : Registry} {id : String} {s : StreamRec}
    (h : regGet? r id = some s) : (id, s) ∈ r := by
  unfold regGet? at h
  cases hf : List.find? (fun p => p.1 == id) r with
  | none => rw [hf] at h; exact absurd h (by simp)
  | some q =>
    rw [hf] at h
    have h2 : q.2 = s := by simpa using h
    have hkey := List.find?_some hf
    have hk : q.1 = id := by simpa using hkey
    have hmem := List.mem_of_find?_eq_some hf
    have he : (id, s) = q := by
      obtain ⟨a, b⟩ := q
      simp only at hk h2
      rw [hk, h2]
    rw [he]
    exact hmem

/-! Registry operations as a transition system, for the progress
invariant of claim C8. -/

/-- One mutating StreamManager operation. -/
inductive RegOp where
  | create (id magnet : String) (now : Int)
  | updStatus (id : String) (st : Status) (err : Option String) (now : Int)
  | updProgress (id : String) (p : Int) (now : Int)
  | keepAlive (id : String) (now : Int)
  | remove (id : String)

/-- Apply one StreamManager operation to the registry. -/
def applyOp (r : Registry) : RegOp → Registry
  | RegOp.create id magnet now => createStream r id magnet now
  | RegOp.updStatus id st err now => updateStreamStatus r id st err now
  | RegOp.updProgress id p now => updateStreamProgress r id p now
  | RegOp.keepAlive id now => (keepStreamAlive r id now).1
  | RegOp.remove id => (removeStream r id).1

/-- Run a sequence of operations from the empty registry. -/
def applyOps (ops : List RegOp) : Registry := ops.foldl applyOp []

/-- Every entry of the registry carries a progress value in [0, 100]. -/
def progressInv (r : Registry) : Prop :=
  ∀ q ∈ r, 0 ≤ q.2.progress ∧ q.2.progress ≤ 100

theorem clampProgress_mem_range (p : Int) :
    0 ≤ clampProgress p ∧ clampProgress p ≤ 100 := by
  unfold clampProgress
  omega

theorem progressInv_applyOp (r : Registry) (op : RegOp) (h : progressInv r) :
    progressInv (applyOp r op) := by
  cases op with
  | create id magnet now =>
    intro q hq
    rcases mem_regSet hq with rfl | hq2
    · exact ⟨le_refl 0, by norm_num⟩
    · exact h q hq2
  | updStatus id st err now =>
    intro q hq
    simp only [applyOp] at hq
    unfold updateStreamStatus at hq
    cases hg : regGet? r id with
    | none => rw [hg] at hq; exact h q hq
    | some s =>
      rw [hg] at hq
      rcases mem_regSet hq with rfl | hq2
      · exact h (id, s) (regGet?_mem hg)
      · exact h q hq2
  | updProgress id p now =>
    intro q hq
    simp only [applyOp] at hq
    unfold updateStreamProgress at hq
    cases hg : regGet? r id with
    | none => rw [hg] at hq; exact h q hq
    | some s =>
      rw [hg] at hq
      rcases mem_regSet hq with rfl | hq2
      · exact clampProgress_mem_range p
      · exact h q hq2
  | keepAlive id now =>
    intro q hq
    simp only [applyOp] at hq
    unfold keepStreamAlive at hq
    cases hg : regGet? r id with
    | none => rw [hg] at hq; exact h q hq
    | some s =>
      rw [hg] at hq
      rcases mem_regSet hq with rfl | hq2
      · exact h (id, s) (regGet?_mem hg)
      · exact h q hq2
  | remove id =>
    intro q hq
    simp only [applyOp] at hq
    unfold removeStream at hq
    exact h q (List.mem_of_mem_filter hq)

theorem progressInv_foldl (r : Registry) (ops : List RegOp) (h : progressInv r) :
    progressInv (ops.foldl applyOp r) := by
  induction ops generalizing r with
  | nil => exact h
  | cons op ops ih => exact ih _ (progressInv_applyOp r op h)

/-- C8: for a present stream, update_progress stores the clamped value
(below 0 stored as 0, above 100 stored as 100), and after any sequence of
registry operations every entry has progress in [0, 100]. -/
theorem updateStreamProgress_clamped_and_invariant :
    (∀ (r : Registry) (id : String) (p now : Int) (s0 : StreamRec),
      regGet? r id = some s0 →
      regGet? (updateStreamProgress r id p now) id =
        some { s0 with progress := clampProgress p, updatedAt := now } ∧
      0 ≤ clampProgress p ∧ clampProgress p ≤ 100 ∧
      (p < 0 → clampProgress p = 0) ∧ (100 < p → clampProgress p = 100)) ∧
    (∀ ops : List RegOp, progressInv (applyOps ops)) := by
  constructor
  · intro r id p now s0 hget
    refine ⟨?_, (clampProgress_mem_range p).1, (clampProgress_mem_range p).2, ?_, ?_⟩
    · unfold updateStreamProgress
      rw [hget]
      exact regGet?_regSet_self r id _
    · intro hp
      unfold clampProgress
      omega
    · intro hp
      unfold clampProgress
      omega
  · intro ops
    exact progressInv_foldl [] ops (by intro q hq; exact absurd hq (List.not_mem_nil q))

/-- Concrete stream id used by witnesses. -/
def wId : String := "stream-1"

/-- Concrete magnet URI used by witnesses. -/
def wMagnet : String := "magnet:?xt=urn:btih:abc"

/-- The registry entry createStream builds for the witness inputs. -/
def mkW0 : StreamRec :=
  { id := wId, magnetUrl := wMagnet, status := Status.initializing,
    progress := 0, errorMsg := none, createdAt := 0, updatedAt := 0,
    accessCount := 0, lastAccessed := 0 }

/-- Closed witness for C8 at a concrete registry and inputs. -/
theorem updateStreamProgress_clamped_witness :
    regGet? (updateStreamProgress (createStream [] wId wMagnet 0) wId 150 1) wId =
      some { (mkW0 : StreamRec) with progress := clampProgress 150, updatedAt := 1 } :=
  ((updateStreamProgress_clamped_and_invariant.1
      (createStream [] wId wMagnet 0) wId 150 1 mkW0 (by decide)).1)

/-! Claim C10: operations on an absent stream id are silent no-ops. -/

/-- C10: for an absent id, updateStreamStatus and updateStreamProgress
leave the registry unchanged, and keepStreamAlive changes nothing and
returns false; for a present id keepStreamAlive returns true. -/
theorem absent_id_ops_are_noops :
    (∀ (r : Registry) (id : String) (st : Status) (err : Option String) (now : Int),
      regGet? r id = none → updateStreamStatus r id st err now = r) ∧
    (∀ (r : Registry) (id : String) (p now : Int),
      regGet? r id = none → updateStreamProgress r id p now = r) ∧
    (∀ (r : Registry) (id : String) (now : Int),
      regGet? r id = none → keepStreamAlive r id now = (r, false)) ∧
    (∀ (r : Registry) (id : String) (now : Int) (s : StreamRec),
      regGet? r id = some s → (keepStreamAlive r id now).2 = true) := by
  refine ⟨?_, ?_, ?_, ?_⟩
  · intro r id st err now h
    unfold updateStreamStatus
    rw [h]
  · intro r id p now h
    unfold updateStreamProgress
    rw [h]
  · intro r id now h
    unfold keepStreamAlive
    rw [h]
  · intro r id now s h
    unfold keepStreamAlive
    rw [h]

/-- Closed witness for C10: concrete absent and present ids. -/
theorem absent_id_ops_are_noops_witness :
    updateStreamStatus [] wId Status.ready none 5 = [] ∧
    updateStreamProgress [] wId 50 5 = [] ∧
    keepStreamAlive [] wId 5 = ([], false) ∧
    (keepStreamAlive (createStream [] wId wMagnet 0) wId 5).2 = true :=
  ⟨absent_id_ops_are_noops.1 [] wId Status.ready none 5 (by decide),
   absent_id_ops_are_noops.2.1 [] wId 50 5 (by decide),
   absent_id_ops_are_noops.2.2.1 [] wId 5 (by decide),
   absent_id_ops_are_noops.2.2.2 (createStream [] wId wMagnet 0) wId 5 mkW0 (by decide)⟩

/-! Claim C3: progress after the ready status.

The engine download handler (src/services/torrentService.js lines
574-604) recomputes the overall torrent percentage on every download
event and stores it unconditionally through updateStreamProgress; no code
path pins the reported progress at 100 once the status is ready. -/

/-- Math.round((downloaded / total) * 100) for nonnegative values,
with the JS guard total = engine.torrent?.length || 1. -/
def downloadEventPercent (downloaded totalRaw : Nat) : Int :=
  let total := if totalRaw = 0 then 1 else totalRaw
  Int.ofNat ((200 * downloaded + total) / (2 * total))

/-- The engine download event handler of startDownload
(src/services/torrentService.js lines 574-604): recompute the overall
torrent percentage and store it in the registry. -/
def engineDownloadTick (r : Registry) (id : String) (downloaded totalRaw : Nat)
    (now : Int) : Registry :=
  updateStreamProgress r id (downloadEventPercent downloaded totalRaw) now

/-- A concrete trace: create a stream, mark it ready, then receive a
download event at 40 of 100 bytes. -/
def c3Trace : Registry :=
  engineDownloadTick
    (updateStreamStatus (createStream [] wId wMagnet 0) wId Status.ready none 1)
    wId 40 100 2

/-- Counterexample to C3: after the stream is ready, a background
download event overwrites the stored progress with 40, so the registry
reports 40 rather than a pinned 100. -/
theorem ready_progress_not_pinned_counterexample :
    (regGet? c3Trace wId).map (fun s => s.progress) = some 40 ∧
    (regGet? c3Trace wId).map (fun s => s.status) = some Status.ready := by
  decide

/-- C3 amended: once a stream is ready, later progress updates are not
pinned at 100; updateStreamProgress overwrites the stored progress with
the clamped incoming value regardless of the ready status, so background
torrent download events can drive the reported progress below 100. -/
theorem ready_progress_overwritten :
    ∀ (r : Registry) (id : String) (p now : Int) (s0 : StreamRec),
      regGet? r id = some s0 → s0.status = Status.ready →
      regGet? (updateStreamProgress r id p now) id =
        some { s0 with progress := clampProgress p, updatedAt := now } := by
  intro r id p now s0 hget _
  unfold updateStreamProgress
  rw [hget]
  exact regGet?_regSet_self r id _

/-- Closed witness for the amended C3 at the concrete ready stream. -/
theorem ready_progress_overwritten_witness :
    regGet?
      (updateStreamProgress
        (updateStreamStatus (createStream [] wId wMagnet 0) wId Status.ready none 1)
        wId 40 2) wId =
      some { (mkW0 : StreamRec) with
              status := Status.ready, updatedAt := 2, progress := clampProgress 40 } :=
  ready_progress_overwritten
    (updateStreamStatus (createStream [] wId wMagnet 0) wId Status.ready none 1)
    wId 40 2
    { mkW0 with status := Status.ready, updatedAt := 1 }
    (by decide) (by decide)

/-! Claim C1: video file selection
(findLargestVideoFile, src/services/torrentService.js lines 664-725,
identical in src/unnamed/part_001 lines 189-250). String helpers model
the Node path.basename / path.extname / String.prototype.includes /
toLowerCase calls for the ASCII file names involved. -/

/-- JS toLowerCase, ASCII letters (the only case-carrying characters in
the extension and pattern sets). -/
def toLowerStr (s : String) : String := String.mk (s.toList.map Char.toLower)

/-- Node path.basename: the component after the last slash. -/
def jsBasename (s : String) : String :=
  String.mk ((s.toList.reverse.takeWhile (fun c => c != '/')).reverse)

/-- Node path.extname applied to a file name: the suffix of the basename
starting at its last dot, or empty when there is no dot or the only dot
is the leading character of the basename (hidden files). -/
def jsExtname (s : String) : String :=
  let b := (jsBasename s).toList
  let revTail := b.reverse.takeWhile (fun c => c != '.')
  if revTail.length = b.length then String.mk []
  else if revTail.length + 1 = b.length then String.mk []
  else String.mk ('.' :: revTail.reverse)

/-- Substring containment on character lists (JS String.prototype.includes). -/
def containsSub (s pat : List Char) : Bool :=
  s.tails.any (fun t => pat.isPrefixOf t)

/-- JS s.includes(pat). -/
def strIncludes (s pat : String) : Bool := containsSub s.toList pat.toList

/-- A file announced by the torrent (name and byte length). -/
structure TFile where
  name : String
  length : Nat
deriving DecidableEq, Repr

/-- The video extension set of findLargestVideoFile. -/
def videoExtensions : List String :=
  [".mp4", ".mkv", ".avi", ".mov", ".wmv", ".flv", ".webm", ".m4v", ".ts", ".mts", ".m2ts"]

/-- The excluded basename patterns of findLargestVideoFile. -/
def excludePatterns : List String :=
  ["sample", "trailer", "preview", "extra", "bonus", "behind", "making"]

/-- videoExtensions.includes(path.extname(file.name).toLowerCase()). -/
def isVideoFile (f : TFile) : Bool :=
  videoExtensions.contains (toLowerStr (jsExtname f.name))

/-- excludePatterns.some(pattern => fileName.includes(pattern)) on the
lower-cased basename. -/
def isSampleFile (f : TFile) : Bool :=
  excludePatterns.any (fun pat => strIncludes (toLowerStr (jsBasename f.name)) pat)

/-- The first filter pass of findLargestVideoFile: video extension and
not a sample. -/
def survivesFilters (f : TFile) : Bool := isVideoFile f && !(isSampleFile f)

/-- 10 * 1024 * 1024 bytes, the minimum preferred size. -/
def minSizeBytes : Nat := 10 * 1024 * 1024

/-- videoFiles.sort((a, b) => b.length - a.length) followed by taking
index 0: the sort is stable (V8), so the result is the first file of
maximal length. -/
def pickFirstLargest : List TFile → Option TFile
  | [] => none
  | f :: fs =>
      some (fs.foldl (fun best g => if g.length > best.length then g else best) f)

/-- findLargestVideoFile (src/services/torrentService.js lines 664-725):
filter to non-sample video files; none found means no selection; prefer
files of at least 10 MiB, falling back to all survivors; pick the first
largest. -/
def findLargestVideoFile (files : List TFile) : Option TFile :=
  let allVideoFiles := files.filter survivesFilters
  if allVideoFiles.isEmpty then none
  else
    let largeVideoFiles := allVideoFiles.filter (fun f => decide (f.length ≥ minSizeBytes))
    let videoFiles := if largeVideoFiles.isEmpty then allVideoFiles else largeVideoFiles
    pickFirstLargest videoFiles

/-- The error message stored when no suitable video file exists
(src/services/torrentService.js line 504). -/
def noMediaMsg : String :=
  "No suitable video file found in torrent. Check that torrent contains video files larger than 50MB."

/-- The file-selection part of the engine ready handler
(src/services/torrentService.js lines 500-518): a missing selection sets
the registry to error and cleans up; otherwise the registry moves to
downloading and the file is selected. -/
def onTorrentReadySelect (r : Registry) (id : String) (files : List TFile)
    (now : Int) : Registry × Option TFile :=
  match findLargestVideoFile files with
  | none => (updateStreamStatus r id Status.error (some noMediaMsg) now, none)
  | some f => (updateStreamStatus r id Status.downloading none now, some f)

theorem pickFoldl_eq_or_mem (fs : List TFile) (a : TFile) :
    fs.foldl (fun best g => if g.length > best.length then g else best) a = a ∨
    fs.foldl (fun best g => if g.length > best.length then g else best) a ∈ fs := by
  induction fs generalizing a with
  | nil => left; rfl
  | cons g gs ih =>
    simp only [List.foldl_cons]
    rcases ih (if g.length > a.length then g else a) with h | h
    · rw [h]
      by_cases hg : g.length > a.length
      · right; rw [if_pos hg]; exact List.mem_cons_self _ _
      · left; rw [if_neg hg]
    · right; exact List.mem_cons_of_mem _ h

theorem pickFoldl_ge_init (fs : List TFile) (a : TFile) :
    a.length ≤ (fs.foldl (fun best g => if g.length > best.length then g else best) a).length := by
  induction fs generalizing a with
  | nil => exact le_refl _
  | cons g gs ih =>
    simp only [List.foldl_cons]
    refine le_trans ?_ (ih (if g.length > a.length then g else a))
    by_cases hg : g.length > a.length
    · rw [if_pos hg]; exact Nat.le_of_lt hg
    · rw [if_neg hg]

theorem pickFoldl_ge_mem (fs : List TFile) (a : TFile) (g : TFile) (hg : g ∈ fs) :
    g.length ≤ (fs.foldl (fun best h => if h.length > best.length then h else best) a).length := by
  induction fs generalizing a with
  | nil => exact absurd hg (List.not_mem_nil g)
  | cons x xs ih =>
    simp only [List.foldl_cons]
    rcases List.mem_cons.mp hg with rfl | hmem
    · refine le_trans ?_ (pickFoldl_ge_init xs (if g.length > a.length then g else a))
      by_cases hx : g.length > a.length
      · rw [if_pos hx]
      · rw [if_neg hx]; omega
    · exact ih _ hmem

theorem pickFirstLargest_spec (xs : List TFile) (f : TFile)
    (h : pickFirstLargest xs = some f) :
    f ∈ xs ∧ ∀ g ∈ xs, g.length ≤ f.length := by
  cases xs with
  | nil => exact absurd h (by simp [pickFirstLargest])
  | cons x rest =>
    have hf : rest.foldl (fun best g => if g.length > best.length then g else best) x = f := by
      simpa [pickFirstLargest] using h
    constructor
    · rcases pickFoldl_eq_or_mem rest x with he | hm
      · rw [← hf, he]; exact List.mem_cons_self _ _
      · rw [← hf]; exact List.mem_cons_of_mem _ hm
    · intro g hg
      rcases List.mem_cons.mp hg with rfl | hmem
      · rw [← hf]; exact pickFoldl_ge_init rest g
      · rw [← hf]; exact pickFoldl_ge_mem rest x g hmem

/-- C1: the selected video file has a video extension and no sample
pattern; among those survivors, files of at least 10 MiB are preferred
with a fallback to all survivors; the pick is largest by size; and when
no file survives the filters nothing is selected and the registry is
transitioned to error. -/
theorem findLargestVideoFile_selection :
    ∀ (files : List TFile) (r : Registry) (id : String) (now : Int) (s0 : StreamRec),
      regGet? r id = some s0 →
      (files.filter survivesFilters = [] →
        findLargestVideoFile files = none ∧
        (onTorrentReadySelect r id files now).2 = none ∧
        regGet? (onTorrentReadySelect r id files now).1 id =
          some { s0 with status := Status.error, errorMsg := some noMediaMsg,
                         updatedAt := now }) ∧
      (∀ f, findLargestVideoFile files = some f →
        survivesFilters f = true ∧
        f ∈ files.filter survivesFilters ∧
        ((files.filter survivesFilters).any
            (fun g => decide (g.length ≥ minSizeBytes)) = true →
          f.length ≥ minSizeBytes) ∧
        (∀ g ∈ files.filter survivesFilters, g.length ≤ f.length)) := by
  intro files r id now s0 hget
  constructor
  · intro hemp
    have h1 : findLargestVideoFile files = none := by
      simp [findLargestVideoFile, hemp]
    refine ⟨h1, ?_, ?_⟩
    · simp [onTorrentReadySelect, h1]
    · simp only [onTorrentReadySelect, h1]
      unfold updateStreamStatus
      rw [hget]
      exact regGet?_regSet_self r id _
  · intro f hf
    simp only [findLargestVideoFile] at hf
    by_cases hs : (files.filter survivesFilters).isEmpty
    · rw [if_pos hs] at hf
      exact absurd hf (by simp)
    · rw [if_neg hs] at hf
      by_cases hb : ((files.filter survivesFilters).filter
          (fun g => decide (g.length ≥ minSizeBytes))).isEmpty
      · rw [if_pos hb] at hf
        obtain ⟨hmem, hmax⟩ := pickFirstLargest_spec _ f hf
        have hsurv : survivesFilters f = true := (List.mem_filter.mp hmem).2
        refine ⟨hsurv, hmem, ?_, hmax⟩
        intro hany
        exfalso
        rcases List.any_eq_true.mp hany with ⟨g, hg, hgl⟩
        have : g ∈ (files.filter survivesFilters).filter
            (fun g => decide (g.length ≥ minSizeBytes)) :=
          List.mem_filter.mpr ⟨hg, hgl⟩
        rw [List.isEmpty_iff] at hb
        rw [hb] at this
        exact List.not_mem_nil g this
      · rw [if_neg hb] at hf
        obtain ⟨hmem, hmax⟩ := pickFirstLargest_spec _ f hf
        have hmem2 := List.mem_filter.mp hmem
        have hsurv : survivesFilters f = true := (List.mem_filter.mp hmem2.1).2
        have hbig : f.length ≥ minSizeBytes := by
          have := hmem2.2
          simpa using this
        refine ⟨hsurv, hmem2.1, fun _ => hbig, ?_⟩
        intro g hg
        by_cases hgl : g.length ≥ minSizeBytes
        · exact hmax g (List.mem_filter.mpr ⟨hg, by simpa using hgl⟩)
        · omega

/-- Files of a torrent with no video content, for the witness. -/
def wFilesNoVideo : List TFile := [{ name := "readme.txt", length := 100 }]

/-- Files of a torrent holding a 40 MiB sample and a 1.5 GiB movie, for
the witness (the boundary example of the specification). -/
def wFilesMovie : List TFile :=
  [{ name := "Sample.mp4", length := 41943040 },
   { name := "Movie.2024/movie.mkv", length := 1610612736 },
   { name := "cover.jpg", length := 52428 }]

/-- The file the witness torrent should select. -/
def wMovieFile : TFile := { name := "Movie.2024/movie.mkv", length := 1610612736 }

/-- Closed witness for C1: the no-video torrent yields no selection and
an error transition; the sample-plus-movie torrent selects the movie. -/
theorem findLargestVideoFile_selection_witness :
    (findLargestVideoFile wFilesNoVideo = none ∧
      (onTorrentReadySelect (createStream [] wId wMagnet 0) wId wFilesNoVideo 3).2 = none ∧
      regGet? (onTorrentReadySelect (createStream [] wId wMagnet 0) wId wFilesNoVideo 3).1 wId =
        some { (mkW0 : StreamRec) with
                status := Status.error, errorMsg := some noMediaMsg, updatedAt := 3 }) ∧
    (survivesFilters wMovieFile = true ∧
      wMovieFile ∈ wFilesMovie.filter survivesFilters ∧
      ((wFilesMovie.filter survivesFilters).any
          (fun g => decide (g.length ≥ minSizeBytes)) = true →
        wMovieFile.length ≥ minSizeBytes) ∧
      (∀ g ∈ wFilesMovie.filter survivesFilters, g.length ≤ wMovieFile.length)) :=
  ⟨(findLargestVideoFile_selection wFilesNoVideo
      (createStream [] wId wMagnet 0) wId 3 mkW0 (by decide)).1 (by decide),
   (findLargestVideoFile_selection wFilesMovie
      (createStream [] wId wMagnet 0) wId 3 mkW0 (by decide)).2 wMovieFile (by decide)⟩

/-! Claim C2: the torrent watchdog
(startHealthCheck, src/services/torrentService.js lines 1213-1274,
identical in src/unnamed/part_001 lines 738-799). Each tick reads the
swarm counters; the two local variables lastDownloaded and stallCount
form the watchdog state. -/

/-- Watchdog state: the closure variables of startHealthCheck. -/
structure HealthState where
  lastDownloaded : Nat
  stallCount : Nat
deriving DecidableEq, Repr

/-- One tick of observed swarm data: engine.swarm.downloaded and the
connected peer count. -/
structure HealthTick where
  downloaded : Nat
  peers : Nat
deriving DecidableEq, Repr

/-- Result of one healthCheck invocation. -/
structure HealthStepResult where
  state : HealthState
  attemptedRecovery : Bool
  declaredDead : Bool
deriving DecidableEq, Repr

/-- One healthCheck tick (src/services/torrentService.js lines
1217-1265): progress resets the counter; otherwise the counter is
incremented, a count of at least 3 triggers pause/resume recovery and
resets the counter, and only then is the dead-torrent condition
(zero peers and a count of at least 6) tested on the same variable. -/
def healthStep (st : HealthState) (t : HealthTick) : HealthStepResult :=
  if t.downloaded > st.lastDownloaded then
    { state := { lastDownloaded := t.downloaded, stallCount := 0 },
      attemptedRecovery := false, declaredDead := false }
  else
    let sc1 := st.stallCount + 1
    let sc2 := if sc1 ≥ 3 then 0 else sc1
    { state := { lastDownloaded := st.lastDownloaded, stallCount := sc2 },
      attemptedRecovery := decide (sc1 ≥ 3),
      declaredDead := decide (t.peers = 0 ∧ sc2 ≥ 6) }

/-- Run the watchdog over a tick sequence; the loop stops as soon as the
torrent is declared dead. Returns the final state and whether the dead
declaration ever fired. -/
def healthRun (st : HealthState) : List HealthTick → HealthState × Bool
  | [] => (st, false)
  | t :: ts =>
      let res := healthStep st t
      if res.declaredDead then (res.state, true)
      else healthRun res.state ts

/-- The registry effect of the watchdog run: the dead declaration would
set status error with the dead-torrent message and clean the engine up
(src/services/torrentService.js lines 1256-1261). -/
def deadTorrentMsg : String := "Torrent appears to be dead (no peers found)"

/-- Registry after a watchdog run from a fresh watchdog state. -/
def healthRunRegistry (r : Registry) (id : String) (st : HealthState)
    (ticks : List HealthTick) (now : Int) : Registry :=
  if (healthRun st ticks).2 then
    updateStreamStatus r id Status.error (some deadTorrentMsg) now
  else r

theorem healthStep_bound (st : HealthState) (t : HealthTick)
    (h : st.stallCount ≤ 2) :
    (healthStep st t).state.stallCount ≤ 2 ∧ (healthStep st t).declaredDead = false := by
  unfold healthStep
  by_cases hd : t.downloaded > st.lastDownloaded
  · rw [if_pos hd]
    exact ⟨by simp, rfl⟩
  · rw [if_neg hd]
    simp only
    constructor
    · by_cases h3 : st.stallCount + 1 ≥ 3
      · simp [h3]
      · simp only [h3, if_false]
        omega
    · by_cases h3 : st.stallCount + 1 ≥ 3
      · simp [h3]
      · simp only [h3, if_false, decide_eq_false_iff_not]
        omega

theorem healthRun_no_dead (st : HealthState) (ticks : List HealthTick)
    (h : st.stallCount ≤ 2) : (healthRun st ticks).2 = false := by
  induction ticks generalizing st with
  | nil => rfl
  | cons t ts ih =>
    obtain ⟨hb, hdead⟩ := healthStep_bound st t h
    simp only [healthRun, hdead, Bool.false_eq_true, if_false]
    exact ih _ hb

/-- C2 evaluated against the code: starting from the fresh watchdog
state, the dead-torrent declaration never fires for any tick sequence,
because the stall counter is reset on the recovery path before the
dead test can see a count of 6; in particular six consecutive stalled
ticks with zero peers (the failing input of the claim) perform the
pause/resume recovery twice and leave the registry untouched, instead of
declaring the torrent dead. -/
theorem healthCheck_dead_branch_unreachable :
    (∀ (d0 : Nat) (ticks : List HealthTick),
      (healthRun { lastDownloaded := d0, stallCount := 0 } ticks).2 = false) ∧
    (∀ (r : Registry) (id : String) (d0 : Nat) (ticks : List HealthTick) (now : Int),
      healthRunRegistry r id { lastDownloaded := d0, stallCount := 0 } ticks now = r) ∧
    healthRun { lastDownloaded := 0, stallCount := 0 }
        (List.replicate 6 { downloaded := 0, peers := 0 }) =
      ({ lastDownloaded := 0, stallCount := 0 }, false) ∧
    (healthStep { lastDownloaded := 0, stallCount := 2 }
        { downloaded := 0, peers := 0 }).attemptedRecovery = true := by
  refine ⟨?_, ?_, by decide, by decide⟩
  · intro d0 ticks
    exact healthRun_no_dead _ ticks (by simp)
  · intro r id d0 ticks now
    unfold healthRunRegistry
    rw [healthRun_no_dead _ ticks (by simp)]
    simp

/-! Claim C4: FFmpeg failure classification and retry
(convertToHLS error handler, src/services/fileService.js lines 498-520;
startFFmpegConversion catch, src/services/torrentService.js lines
1030-1042; retryFFmpegConversion, src/services/torrentService.js lines
1050-1113). -/

/-- The substring matched for the not-ready input classification. -/
def invalidDataMsg : String := "Invalid data found when processing input"

/-- The second substring matched for the not-ready classification. -/
def errorOpeningMsg : String := "Error opening input file"

/-- The waiting_for_data status detail. -/
def waitingDataMsg : String := "Waiting for more torrent data..."

/-- The rejection marker prepended by the error handler. -/
def fnrMark : String := "FILE_NOT_READY: "

/-- The marker the coordinator catch blocks test with includes. -/
def fnrToken : String := "FILE_NOT_READY"

/-- Substring matched for the re-encode fallback. -/
def codecMsg : String := "codec"

/-- Second substring matched for the re-encode fallback. -/
def formatMsg : String := "format"

/-- Message stored when the retry budget is exceeded at entry. -/
def retryExhaustedMsg : String := "FFmpeg failed after multiple retry attempts"

/-- Message stored when a retry fails terminally. -/
def failAfterMsg (attempt : Nat) (emsg : String) : String :=
  "FFmpeg failed after " ++ toString attempt ++ " attempts: " ++ emsg

/-- Message classification for file_not_ready. -/
def isFileNotReadyMsg (msg : String) : Bool :=
  strIncludes msg invalidDataMsg || strIncludes msg errorOpeningMsg

/-- Message classification for the codec or format fallback. -/
def isCodecFormatMsg (msg : String) : Bool :=
  strIncludes msg codecMsg || strIncludes msg formatMsg

/-- The outcome of one FFmpeg run, as observed through its events. -/
inductive RunResult where
  | success
  | fail (msg : String)

/-- The convertToHLS error handler (src/services/fileService.js lines
498-520): a not-ready message sets waiting_for_data and rejects with the
FILE_NOT_READY marker; a codec or format message hands over to the
re-encode fallback (abstracted as the fallback argument); any other
message sets error and rejects as-is. The first component is the
registry status update the handler performs, the second the settled
promise outcome. -/
def convertToHLSOnError (msg : String) (fallback : Except String Unit) :
    Option (Status × Option String) × Except String Unit :=
  if isFileNotReadyMsg msg then
    (some (Status.waitingForData, some waitingDataMsg), Except.error (fnrMark ++ msg))
  else if isCodecFormatMsg msg then
    (none, fallback)
  else
    (some (Status.error, some msg), Except.error msg)

/-- Registry status updates of one conversion supervision, oldest first. -/
def optConsUpd (u : Option (Status × Option String))
    (rest : List (Status × Option String)) : List (Status × Option String) :=
  match u with
  | some x => x :: rest
  | none => rest

/-- Trace of a whole conversion supervision: the scheduled retry delays
in milliseconds, the registry status updates in order, and the final
status. -/
structure ConvAttemptTrace where
  delays : List Nat
  updates : List (Status × Option String)
  final : Status
deriving DecidableEq, Repr

/-- retryFFmpegConversion (src/services/torrentService.js lines
1050-1113) with maxAttempts = 3: an attempt beyond the budget stores the
exhaustion error; a successful retry stores ready; a rejection carrying
FILE_NOT_READY with attempt below 3 schedules the next retry after 15 s;
any other rejection stores the terminal error. The runs argument gives
the FFmpeg outcome of each retry attempt, the fb argument the abstracted
re-encode fallback outcome. -/
def retryConversion (runs : Nat → RunResult) (fb : Nat → Except String Unit)
    (attempt : Nat) : ConvAttemptTrace :=
  if h : attempt > 3 then
    { delays := [], updates := [(Status.error, some retryExhaustedMsg)],
      final := Status.error }
  else
    match runs attempt with
    | RunResult.success =>
        { delays := [], updates := [(Status.ready, none)], final := Status.ready }
    | RunResult.fail msg =>
        let handled := convertToHLSOnError msg (fb attempt)
        match handled.2 with
        | Except.ok _ =>
            { delays := [], updates := optConsUpd handled.1 [(Status.ready, none)],
              final := Status.ready }
        | Except.error emsg =>
            if strIncludes emsg fnrToken && decide (attempt < 3) then
              let t := retryConversion runs fb (attempt + 1)
              { delays := 15000 :: t.delays, updates := optConsUpd handled.1 t.updates,
                final := t.final }
            else
              { delays := [],
                updates := optConsUpd handled.1
                  [(Status.error, some (failAfterMsg attempt emsg))],
                final := Status.error }
termination_by 4 - attempt
decreasing_by omega

/-- The first conversion run and the startFFmpegConversion catch block
(src/services/torrentService.js lines 1025-1042): success stores ready;
a FILE_NOT_READY rejection schedules the first retry after 10 s; any
other rejection stores error. -/
def conversionFlow (firstMsg : String) (runs : Nat → RunResult)
    (fb : Nat → Except String Unit) : ConvAttemptTrace :=
  let handled := convertToHLSOnError firstMsg (fb 0)
  match handled.2 with
  | Except.ok _ =>
      { delays := [], updates := optConsUpd handled.1 [(Status.ready, none)],
        final := Status.ready }
  | Except.error emsg =>
      if strIncludes emsg fnrToken then
        let t := retryConversion runs fb 1
        { delays := 10000 :: t.delays, updates := optConsUpd handled.1 t.updates,
          final := t.final }
      else
        { delays := [], updates := optConsUpd handled.1 [(Status.error, some emsg)],
          final := Status.error }

theorem isPrefixOf_append_self (l t : List Char) : l.isPrefixOf (l ++ t) = true := by
  induction l with
  | nil => simp [List.isPrefixOf]
  | cons c cs ih => simpa [List.isPrefixOf] using ih

theorem strIncludes_fnrMark (msg : String) :
    strIncludes (fnrMark ++ msg) fnrToken = true := by
  unfold strIncludes containsSub
  apply List.any_eq_true.mpr
  refine ⟨(fnrMark ++ msg).toList, ?_, ?_⟩
  · rw [List.mem_tails]
  · have h1 : (fnrMark ++ msg).toList = fnrToken.toList ++ (": ".toList ++ msg.toList) := by
      show (fnrMark ++ msg).data = fnrToken.data ++ (": ".data ++ msg.data)
      rw [String.data_append]
      rw [← List.append_assoc]
      have h2 : fnrMark.data = fnrToken.data ++ ": ".data := by decide
      rw [h2]
    rw [h1]
    exact isPrefixOf_append_self _ _

theorem retryConversion_delay_15000 (runs : Nat → RunResult)
    (fb : Nat → Except String Unit) :
    ∀ (k attempt : Nat), 4 - attempt ≤ k →
      ∀ d ∈ (retryConversion runs fb attempt).delays, d = 15000 := by
  intro k
  induction k with
  | zero =>
    intro attempt hk d hd
    have h3 : attempt > 3 := by omega
    rw [retryConversion, dif_pos h3] at hd
    exact absurd hd (List.not_mem_nil d)
  | succ k ih =>
    intro attempt hk d hd
    by_cases h3 : attempt > 3
    · rw [retryConversion, dif_pos h3] at hd
      exact absurd hd (List.not_mem_nil d)
    · rw [retryConversion, dif_neg h3] at hd
      cases hrun : runs attempt with
      | success =>
        rw [hrun] at hd
        simp at hd
      | fail msg =>
        rw [hrun] at hd
        dsimp only at hd
        cases hout : (convertToHLSOnError msg (fb attempt)).2 with
        | ok u =>
          rw [hout] at hd
          simp at hd
        | error emsg =>
          rw [hout] at hd
          dsimp only at hd
          by_cases hc : (strIncludes emsg fnrToken && decide (attempt < 3)) = true
          · rw [if_pos hc] at hd
            dsimp only at hd
            rcases List.mem_cons.mp hd with rfl | hmem
            · rfl
            · exact ih (attempt + 1) (by omega) d hmem
          · rw [if_neg hc] at hd
            simp at hd

theorem retryConversion_delays_len (runs : Nat → RunResult)
    (fb : Nat → Except String Unit) :
    ∀ (k attempt : Nat), 4 - attempt ≤ k →
      (retryConversion runs fb attempt).delays.length ≤ 3 - attempt := by
  intro k
  induction k with
  | zero =>
    intro attempt hk
    have h3 : attempt > 3 := by omega
    rw [retryConversion, dif_pos h3]
    simp
  | succ k ih =>
    intro attempt hk
    by_cases h3 : attempt > 3
    · rw [retryConversion, dif_pos h3]
      simp
    · rw [retryConversion, dif_neg h3]
      cases hrun : runs attempt with
      | success => simp
      | fail msg =>
        dsimp only
        cases hout : (convertToHLSOnError msg (fb attempt)).2 with
        | ok u => simp
        | error emsg =>
          dsimp only
          by_cases hc : (strIncludes emsg fnrToken && decide (attempt < 3)) = true
          · rw [if_pos hc]
            dsimp only [List.length_cons]
            have hlt : attempt < 3 := by
              have := (Bool.and_eq_true _ _).mp hc
              exact of_decide_eq_true this.2
            have := ih (attempt + 1) (by omega)
            omega
          · rw [if_neg hc]
            simp

theorem retryConversion_final_error (runs : Nat → RunResult)
    (fb : Nat → Except String Unit) :
    ∀ (k attempt : Nat), 4 - attempt ≤ k →
      (∀ n, attempt ≤ n → n ≤ 3 →
        ∃ m, runs n = RunResult.fail m ∧ isFileNotReadyMsg m = true) →
      (retryConversion runs fb attempt).final = Status.error := by
  intro k
  induction k with
  | zero =>
    intro attempt hk hall
    have h3 : attempt > 3 := by omega
    rw [retryConversion, dif_pos h3]
  | succ k ih =>
    intro attempt hk hall
    by_cases h3 : attempt > 3
    · rw [retryConversion, dif_pos h3]
    · obtain ⟨m, hm, hfnr⟩ := hall attempt (le_refl attempt) (by omega)
      have hco : convertToHLSOnError m (fb attempt) =
          (some (Status.waitingForData, some waitingDataMsg),
            Except.error (fnrMark ++ m)) := by
        unfold convertToHLSOnError
        rw [if_pos hfnr]
      rw [retryConversion, dif_neg h3, hm]
      dsimp only
      rw [hco]
      dsimp only
      by_cases hlt : attempt < 3
      · rw [if_pos (by
          rw [Bool.and_eq_true]
          exact ⟨strIncludes_fnrMark m, decide_eq_true hlt⟩)]
        dsimp only
        refine ih (attempt + 1) (by omega) ?_
        intro n hn1 hn2
        exact hall n (by omega) hn2
      · rw [if_neg (by
          rw [Bool.and_eq_true]
          intro hand
          exact hlt (of_decide_eq_true hand.2))]

theorem conversionFlow_eq_of_fnr (msg : String) (runs : Nat → RunResult)
    (fb : Nat → Except String Unit) (hmsg : isFileNotReadyMsg msg = true) :
    conversionFlow msg runs fb =
      { delays := 10000 :: (retryConversion runs fb 1).delays,
        updates := (Status.waitingForData, some waitingDataMsg) ::
          (retryConversion runs fb 1).updates,
        final := (retryConversion runs fb 1).final } := by
  unfold conversionFlow
  have hco : convertToHLSOnError msg (fb 0) =
      (some (Status.waitingForData, some waitingDataMsg),
        Except.error (fnrMark ++ msg)) := by
    unfold convertToHLSOnError
    rw [if_pos hmsg]
  rw [hco]
  dsimp only
  rw [if_pos (strIncludes_fnrMark msg)]
  rfl

/-- C4: a first-run FFmpeg failure whose message carries one of the two
not-ready substrings sets the registry to waiting_for_data (not error)
and triggers a retry cycle: the first retry is scheduled after 10 s,
every later one after 15 s, at most 3 retries are scheduled, and when
every retry attempt keeps failing with a not-ready message the final
status is error. -/
theorem ffmpeg_file_not_ready_retry :
    ∀ (msg : String) (runs : Nat → RunResult) (fb : Nat → Except String Unit),
      isFileNotReadyMsg msg = true →
      (conversionFlow msg runs fb).updates.head? =
        some (Status.waitingForData, some waitingDataMsg) ∧
      (conversionFlow msg runs fb).delays.head? = some 10000 ∧
      (∀ d ∈ (conversionFlow msg runs fb).delays.tail, d = 15000) ∧
      (conversionFlow msg runs fb).delays.length ≤ 3 ∧
      ((∀ n, 1 ≤ n → n ≤ 3 →
          ∃ m, runs n = RunResult.fail m ∧ isFileNotReadyMsg m = true) →
        (conversionFlow msg runs fb).final = Status.error) := by
  intro msg runs fb hmsg
  rw [conversionFlow_eq_of_fnr msg runs fb hmsg]
  refine ⟨rfl, rfl, ?_, ?_, ?_⟩
  · intro d hd
    exact retryConversion_delay_15000 runs fb 3 1 (by omega) d hd
  · have := retryConversion_delays_len runs fb 3 1 (by omega)
    dsimp only [List.length_cons]
    omega
  · intro hall
    exact retryConversion_final_error runs fb 3 1 (by omega) hall

/-- Witness retry outcomes: every retry fails with the not-ready text. -/
def wRuns : Nat → RunResult := fun _ => RunResult.fail invalidDataMsg

/-- Witness fallback outcomes (never consulted on the not-ready path). -/
def wFb : Nat → Except String Unit := fun _ => Except.error invalidDataMsg

/-- Closed witness for C4: a first failure with the invalid-data text,
retries always failing the same way. -/
theorem ffmpeg_file_not_ready_retry_witness :
    (conversionFlow invalidDataMsg wRuns wFb).updates.head? =
      some (Status.waitingForData, some waitingDataMsg) ∧
    (conversionFlow invalidDataMsg wRuns wFb).delays.head? = some 10000 ∧
    (conversionFlow invalidDataMsg wRuns wFb).final = Status.error := by
  obtain ⟨h1, h2, _, _, h5⟩ :=
    ffmpeg_file_not_ready_retry invalidDataMsg wRuns wFb (by decide)
  exact ⟨h1, h2, h5 (fun n _ _ => ⟨invalidDataMsg, rfl, by decide⟩)⟩

/-! Claim C5: the janitor never sweeps a downloading or converting
stream (getOldStreams, src/services/streamManager.js lines 69-83;
performCleanup, src/services/cleanupService.js lines 40-95). -/

/-- TorrentService.cleanup: destroy and forget the engine of the stream
(src/services/torrentService.js lines 1276-1283), modelled on the set of
stream ids with an active engine. -/
def torrentCleanup (engines : List String) (id : String) : List String :=
  engines.filter (fun e => !(e == id))

/-- FFmpegService.stopConversion: kill and forget the process of the
stream (src/services/ffmpegService.js lines 79-86), modelled on the set
of stream ids with an active conversion. -/
def stopConversion (conv : List String) (id : String) : List String :=
  conv.filter (fun e => !(e == id))

/-- The per-stream body of the performCleanup loop
(src/services/cleanupService.js lines 57-78): stop the torrent, stop the
conversion, remove the registry entry. (The file deletion acts on the
filesystem, outside this model.) -/
def cleanupStreamStep (acc : Registry × List String × List String)
    (s : StreamRec) : Registry × List String × List String :=
  ((removeStream acc.1 s.id).1, torrentCleanup acc.2.1 s.id, stopConversion acc.2.2 s.id)

/-- performCleanup (src/services/cleanupService.js lines 40-95): collect
the old streams and run the per-stream teardown for each of them. -/
def performCleanup (r : Registry) (engines conv : List String)
    (now maxAgeMinutes : Int) : Registry × List String × List String :=
  (getOldStreams r now maxAgeMinutes).foldl cleanupStreamStep (r, engines, conv)

/-- Well-formed registry: keys are pairwise distinct and every entry is
stored under its own stream id (every write path of StreamManager keys
the record by its id field). -/
def regWF (r : Registry) : Prop :=
  r.Pairwise (fun p q => p.1 ≠ q.1) ∧ ∀ p ∈ r, p.2.id = p.1

theorem key_unique {r : Registry} (hwf : r.Pairwise (fun p q => p.1 ≠ q.1))
    {k : String} {a b : StreamRec} (ha : (k, a) ∈ r) (hb : (k, b) ∈ r) : a = b := by
  induction r with
  | nil => exact absurd ha (List.not_mem_nil _)
  | cons p ps ih =>
    rcases List.pairwise_cons.mp hwf with ⟨hhead, htail⟩
    rcases List.mem_cons.mp ha with rfl | ha2
    · rcases List.mem_cons.mp hb with he | hb2
      · exact (congrArg Prod.snd he).symm
      · exact absurd rfl (hhead (k, b) hb2)
    · rcases List.mem_cons.mp hb with rfl | hb2
      · exact absurd rfl (hhead (k, a) ha2)
      · exact ih htail ha2 hb2

theorem find?_filter_ne_key (r : Registry) (id k : String) (hne : k ≠ id) :
    List.find? (fun p => p.1 == id) (r.filter (fun p => !(p.1 == k))) =
      List.find? (fun p => p.1 == id) r := by
  induction r with
  | nil => rfl
  | cons p ps ih =>
    by_cases hpk : p.1 = k
    · have hb : (p.1 == k) = true := by simp [hpk]
      have hbid : (p.1 == id) = false := by simp [hpk, hne]
      simp only [List.filter_cons, hb, Bool.not_true, Bool.false_eq_true, if_false,
        List.find?_cons, hbid, ih]
    · have hb : (p.1 == k) = false := by simp [hpk]
      by_cases hpid : p.1 = id
      · have hbid : (p.1 == id) = true := by simp [hpid]
        simp only [List.filter_cons, hb, Bool.not_false, if_true, List.find?_cons, hbid]
      · have hbid : (p.1 == id) = false := by simp [hpid]
        simp only [List.filter_cons, hb, Bool.not_false, if_true, List.find?_cons,
          hbid, ih]

theorem regGet?_remove_other (r : Registry) (id k : String) (hne : k ≠ id) :
    regGet? (removeStream r k).1 id = regGet? r id := by
  unfold regGet? removeStream
  rw [find?_filter_ne_key r id k hne]

theorem mem_filter_ne (l : List String) (id k : String) (hne : k ≠ id)
    (h : id ∈ l) : id ∈ l.filter (fun e => !(e == k)) := by
  refine List.mem_filter.mpr ⟨h, ?_⟩
  simp [hne.symm]

theorem cleanup_foldl_preserves (old : List StreamRec) (id : String)
    (hold : ∀ x ∈ old, x.id ≠ id) :
    ∀ (r : Registry) (engines conv : List String),
      regGet? (old.foldl cleanupStreamStep (r, engines, conv)).1 id = regGet? r id ∧
      (id ∈ engines → id ∈ (old.foldl cleanupStreamStep (r, engines, conv)).2.1) ∧
      (id ∈ conv → id ∈ (old.foldl cleanupStreamStep (r, engines, conv)).2.2) := by
  induction old with
  | nil => intro r engines conv; exact ⟨rfl, fun h => h, fun h => h⟩
  | cons x xs ih =>
    intro r engines conv
    have hxid : x.id ≠ id := hold x (List.mem_cons_self _ _)
    have hxs : ∀ y ∈ xs, y.id ≠ id := fun y hy => hold y (List.mem_cons_of_mem _ hy)
    simp only [List.foldl_cons]
    dsimp only [cleanupStreamStep]
    obtain ⟨h1, h2, h3⟩ := ih hxs (removeStream r x.id).1
      (torrentCleanup engines x.id) (stopConversion conv x.id)
    refine ⟨?_, ?_, ?_⟩
    · rw [h1]
      exact regGet?_remove_other r id x.id hxid
    · intro hin
      exact h2 (mem_filter_ne engines id x.id hxid hin)
    · intro hin
      exact h3 (mem_filter_ne conv id x.id hxid hin)

/-- C5: an old-stream listing never contains a downloading or converting
stream, and the janitor sweep leaves the registry entry, the torrent
engine, and the active conversion of such a stream untouched, regardless
of its age. -/
theorem janitor_spares_active_streams :
    ∀ (r : Registry) (engines conv : List String) (now maxAgeMinutes : Int)
      (id : String) (s : StreamRec),
      regWF r →
      regGet? r id = some s →
      (s.status = Status.downloading ∨ s.status = Status.converting) →
      (∀ x ∈ getOldStreams r now maxAgeMinutes,
        x.status ≠ Status.downloading ∧ x.status ≠ Status.converting) ∧
      s ∉ getOldStreams r now maxAgeMinutes ∧
      regGet? (performCleanup r engines conv now maxAgeMinutes).1 id = some s ∧
      (id ∈ engines → id ∈ (performCleanup r engines conv now maxAgeMinutes).2.1) ∧
      (id ∈ conv → id ∈ (performCleanup r engines conv now maxAgeMinutes).2.2) := by
  intro r engines conv now maxAgeMinutes id s hwf hget hact
  have hnotold : ∀ x ∈ getOldStreams r now maxAgeMinutes,
      x.status ≠ Status.downloading ∧ x.status ≠ Status.converting := by
    intro x hx
    have := (List.mem_filter.mp hx).2
    constructor
    · intro hc
      simp [hc] at this
    · intro hc
      simp [hc] at this
  have hsid : s.id = id := by
    have hmem := regGet?_mem hget
    exact hwf.2 (id, s) hmem
  have holdne : ∀ x ∈ getOldStreams r now maxAgeMinutes, x.id ≠ id := by
    intro x hx hxid
    have hxmem : x ∈ r.map (fun p => p.2) := (List.mem_filter.mp hx).1
    rcases List.mem_map.mp hxmem with ⟨p, hp, hpx⟩
    have hkey : p.1 = x.id := by
      rw [← hpx]
      exact (hwf.2 p hp).symm
    have hpmem : (id, x) ∈ r := by
      have hpe : p = (id, x) := by
        obtain ⟨pk, pv⟩ := p
        simp only at hpx hkey
        rw [hpx, hkey, hxid]
      exact hpe ▸ hp
    have hxs : x = s := key_unique hwf.1 hpmem (regGet?_mem hget)
    rcases hact with hc | hc
    · exact (hnotold x hx).1 (hxs ▸ hc)
    · exact (hnotold x hx).2 (hxs ▸ hc)
  have hnotmem : s ∉ getOldStreams r now maxAgeMinutes := by
    intro hmem
    exact holdne s hmem hsid
  obtain ⟨h1, h2, h3⟩ := cleanup_foldl_preserves
    (getOldStreams r now maxAgeMinutes) id holdne r engines conv
  refine ⟨hnotold, hnotmem, ?_, h2, h3⟩
  unfold performCleanup
  rw [h1, hget]

/-- A concrete well-formed registry holding one very old downloading
stream, for the C5 witness. -/
def wOldDownloading : StreamRec :=
  { mkW0 with status := Status.downloading, updatedAt := 0 }

/-- Registry for the C5 witness. -/
def wReg5 : Registry := [(wId, wOldDownloading)]

/-- Closed witness for C5: a downloading stream 100 minutes old survives
a 30-minute sweep with its engine and conversion intact. -/
theorem janitor_spares_active_streams_witness :
    wOldDownloading ∉ getOldStreams wReg5 6000000 30 ∧
    regGet? (performCleanup wReg5 [wId] [wId] 6000000 30).1 wId = some wOldDownloading ∧
    (wId ∈ ([wId] : List String) →
      wId ∈ (performCleanup wReg5 [wId] [wId] 6000000 30).2.1) := by
  obtain ⟨_, hb, hc, hd, _⟩ :=
    janitor_spares_active_streams wReg5 [wId] [wId] 6000000 30 wId wOldDownloading
      (by constructor
          · simp [wReg5]
          · intro p hp
            simp [wReg5] at hp
            rw [hp]
            rfl)
      (by decide) (Or.inl (by decide))
  exact ⟨hb, hc, hd⟩

/-! Claim C6: the GET /stream/:id handler
(StreamController.getStream, src/services/streamManager.js lines
193-231, identical in src/unnamed/part_002 lines 48-86). -/

/-- Body message of the 202 response. -/
def notReadyYetMsg : String := "Stream is not ready yet"

/-- Body message of the unknown-stream 404 response. -/
def streamNotFoundMsg : String := "Stream not found"

/-- Body message of the missing-playlist 404 response. -/
def playlistNotFoundMsg : String := "HLS playlist not found"

/-- MIME type of HLS playlists. -/
def mpegurlType : String := "application/vnd.apple.mpegurl"

/-- Cache-Control value for playlists. -/
def noCacheValue : String := "no-cache"

/-- Response of the GET /stream/:id handler. -/
inductive StreamResponse where
  | notFound (message : String)
  | accepted (status : Status) (message : String) (progress : Int)
  | playlist (contentType cacheControl : String)
deriving DecidableEq, Repr

/-- HTTP status code of a StreamResponse. -/
def StreamResponse.code : StreamResponse → Nat
  | StreamResponse.notFound _ => 404
  | StreamResponse.accepted _ _ _ => 202
  | StreamResponse.playlist _ _ => 200

/-- The GET /stream/:id handler: 404 for an unknown id, 202 with status,
message and progress while not ready, and the playlist with the HLS MIME
type and no-cache once ready and present on disk (the playlistExists
flag stands for fileService.fileExists on the playlist path). -/
def getStreamEndpoint (r : Registry) (id : String) (playlistExists : Bool) :
    StreamResponse :=
  match regGet? r id with
  | none => StreamResponse.notFound streamNotFoundMsg
  | some s =>
    if s.status ≠ Status.ready then
      StreamResponse.accepted s.status notReadyYetMsg s.progress
    else if playlistExists then
      StreamResponse.playlist mpegurlType noCacheValue
    else
      StreamResponse.notFound playlistNotFoundMsg

/-- C6: unknown stream means 404; any status other than ready means 202
carrying the status, a progress value and a message; ready with the
playlist on disk means 200 with the HLS MIME type and no-cache. -/
theorem getStreamEndpoint_spec :
    ∀ (r : Registry) (id : String) (pe : Bool),
      (regGet? r id = none →
        getStreamEndpoint r id pe = StreamResponse.notFound streamNotFoundMsg ∧
        (getStreamEndpoint r id pe).code = 404) ∧
      (∀ s, regGet? r id = some s → s.status ≠ Status.ready →
        getStreamEndpoint r id pe =
          StreamResponse.accepted s.status notReadyYetMsg s.progress ∧
        (getStreamEndpoint r id pe).code = 202) ∧
      (∀ s, regGet? r id = some s → s.status = Status.ready → pe = true →
        getStreamEndpoint r id pe = StreamResponse.playlist mpegurlType noCacheValue ∧
        (getStreamEndpoint r id pe).code = 200) := by
  intro r id pe
  refine ⟨?_, ?_, ?_⟩
  · intro h
    unfold getStreamEndpoint
    rw [h]
    exact ⟨rfl, rfl⟩
  · intro s h hs
    unfold getStreamEndpoint
    rw [h]
    dsimp only
    rw [if_pos hs]
    exact ⟨rfl, rfl⟩
  · intro s h hs hpe
    unfold getStreamEndpoint
    rw [h]
    dsimp only
    have hn : ¬(s.status ≠ Status.ready) := by
      rw [hs]
      exact fun hc => hc rfl
    rw [if_neg hn, hpe, if_pos rfl]
    exact ⟨rfl, rfl⟩

/-- Registry for the C6 witness: one downloading stream at 37 percent. -/
def wReg6 : Registry :=
  [(wId, { mkW0 with status := Status.downloading, progress := 37 })]

/-- Registry for the C6 witness, ready case. -/
def wReg6r : Registry := [(wId, { mkW0 with status := Status.ready })]

/-- Closed witness for C6: an unknown id yields 404, a downloading
stream yields 202 with its progress, a ready stream with the playlist on
disk yields the playlist response. -/
theorem getStreamEndpoint_spec_witness :
    getStreamEndpoint [] wId true = StreamResponse.notFound streamNotFoundMsg ∧
    getStreamEndpoint wReg6 wId true =
      StreamResponse.accepted Status.downloading notReadyYetMsg 37 ∧
    getStreamEndpoint wReg6r wId true =
      StreamResponse.playlist mpegurlType noCacheValue :=
  ⟨((getStreamEndpoint_spec [] wId true).1 (by decide)).1,
   ((getStreamEndpoint_spec wReg6 wId true).2.1
      { mkW0 with status := Status.downloading, progress := 37 }
      (by decide) (by decide)).1,
   ((getStreamEndpoint_spec wReg6r wId true).2.2
      { mkW0 with status := Status.ready }
      (by decide) (by decide) rfl).1⟩

/-! Claim C7: the GET /hls/:id/:file handler for range requests
(StreamController.getHLSFile, src/services/streamManager.js lines
261-320). File contents are byte lists; fs.createReadStream with start
and end reads the inclusive byte range. -/

/-- File bytes on disk. -/
abbrev Bytes := List Nat

/-- The .ts extension tested by the handler. -/
def tsExt : String := ".ts"

/-- The .m3u8 extension tested by the handler. -/
def m3u8Ext : String := ".m3u8"

/-- MIME type of MPEG-TS segments. -/
def mp2tType : String := "video/mp2t"

/-- Cache-Control for segments. -/
def segmentCacheValue : String := "public, max-age=31536000"

/-- Accept-Ranges value. -/
def acceptRangesValue : String := "bytes"

/-- Body message of the missing-file 404 response. -/
def hlsFileNotFoundMsg : String := "HLS file not found"

/-- The prefix removed from the Range header. -/
def bytesEq : String := "bytes="

/-- JS String.prototype.endsWith. -/
def jsEndsWith (s suf : String) : Bool := suf.toList.isSuffixOf s.toList

/-- JS String.prototype.replace with a plain pattern: remove the first
occurrence of the pattern. -/
def removeFirstSub (pat : List Char) : List Char → List Char
  | [] => []
  | c :: rest =>
      if pat.isPrefixOf (c :: rest) then (c :: rest).drop pat.length
      else c :: removeFirstSub pat rest

/-- JS String.prototype.split on a dash. -/
def splitOnDash : List Char → List (List Char)
  | [] => [[]]
  | c :: rest =>
      if c = '-' then [] :: splitOnDash rest
      else
        match splitOnDash rest with
        | [] => [[c]]
        | p :: ps => (c :: p) :: ps

/-- Decimal digit test. -/
def isDigitChar (c : Char) : Bool := decide (c.toNat ≥ 48) && decide (c.toNat ≤ 57)

/-- JS parseInt(s, 10) restricted to the plain digit sequences produced
by well-formed Range headers (sign, whitespace and trailing garbage are
not modelled; a digit-free string gives NaN, modelled as none). -/
def jsParseIntDigits (cs : List Char) : Option Nat :=
  let ds := cs.takeWhile isDigitChar
  if ds.isEmpty then none
  else some (ds.foldl (fun v c => v * 10 + (c.toNat - 48)) 0)

/-- The Range header arithmetic of getHLSFile (src/services/streamManager.js
lines 286-288): strip bytes=, split on the dash, parse the start, and
use fileSize - 1 when the end part is missing or empty. -/
def parseRangeHeader (range : String) (fileSize : Nat) : Option (Nat × Nat) :=
  match splitOnDash (removeFirstSub bytesEq.toList range.toList) with
  | [] => none
  | p0 :: rest =>
    match jsParseIntDigits p0 with
    | none => none
    | some a =>
      match rest with
      | [] => some (a, fileSize - 1)
      | p1 :: _ =>
        if p1.isEmpty then some (a, fileSize - 1)
        else
          match jsParseIntDigits p1 with
          | none => none
          | some b => some (a, b)

/-- fs.createReadStream(path, start, end): the inclusive byte range. -/
def createReadStreamRange (bytes : Bytes) (start endIdx : Nat) : Bytes :=
  (bytes.drop start).take (endIdx - start + 1)

/-- The 206 response written by the handler. -/
structure SegmentRangeResponse where
  code : Nat
  contentRange : String
  acceptRanges : String
  contentLength : Nat
  contentType : String
  cacheControl : String
  body : Bytes
deriving DecidableEq, Repr

/-- The Content-Range header value bytes a-b/n. -/
def mkContentRange (a b n : Nat) : String :=
  "bytes " ++ toString a ++ "-" ++ toString b ++ "/" ++ toString n

/-- Response of the GET /hls/:id/:file handler. invalidRange stands for
the NaN header arithmetic JS would perform on an unparseable range; no
claim exercises it. -/
inductive HLSFileResponse where
  | notFound (message : String)
  | ranged (resp : SegmentRangeResponse)
  | full (contentType : Option String) (cacheControl : String) (body : Bytes)
  | invalidRange
deriving DecidableEq, Repr

/-- The non-range branch of the handler: 200 with the whole file, the
MIME type chosen by extension, and the public cache header. -/
def serveFullHLSFile (file : String) (bytes : Bytes) : HLSFileResponse :=
  HLSFileResponse.full
    (if jsEndsWith file m3u8Ext then some mpegurlType
     else if jsEndsWith file tsExt then some mp2tType
     else none)
    segmentCacheValue bytes

/-- The GET /hls/:id/:file handler (src/services/streamManager.js lines
261-320): 404 for an unknown stream or missing file; for a Range request
on a .ts file, a 206 with Content-Range, Accept-Ranges, the chunk length
and the inclusive byte slice; otherwise the whole file. -/
def getHLSFileEndpoint (r : Registry) (id file : String) (fileOnDisk : Option Bytes)
    (rangeHeader : Option String) : HLSFileResponse :=
  match regGet? r id with
  | none => HLSFileResponse.notFound streamNotFoundMsg
  | some _ =>
    match fileOnDisk with
    | none => HLSFileResponse.notFound hlsFileNotFoundMsg
    | some bytes =>
      match rangeHeader with
      | some range =>
        if jsEndsWith file tsExt then
          match parseRangeHeader range bytes.length with
          | some (a, b) =>
              HLSFileResponse.ranged
                { code := 206, contentRange := mkContentRange a b bytes.length,
                  acceptRanges := acceptRangesValue, contentLength := b - a + 1,
                  contentType := mp2tType, cacheControl := segmentCacheValue,
                  body := createReadStreamRange bytes a b }
          | none => HLSFileResponse.invalidRange
        else serveFullHLSFile file bytes
      | none => serveFullHLSFile file bytes

/-- C7: a range request bytes=a-b on an existing .ts segment of an
existing stream yields 206 with Accept-Ranges bytes, Content-Range
bytes a-b/fileSize, Content-Length b-a+1 and the inclusive byte slice
as body; adjacent slices concatenate to the enclosing slice, and the
full-range slice is the whole file, so disjoint range responses
reassemble the file. -/
theorem hls_segment_range_request :
    ∀ (r : Registry) (id file : String) (s : StreamRec) (bytes : Bytes)
      (hdr : String) (a b : Nat),
      regGet? r id = some s →
      jsEndsWith file tsExt = true →
      parseRangeHeader hdr bytes.length = some (a, b) →
      a ≤ b → b < bytes.length →
      getHLSFileEndpoint r id file (some bytes) (some hdr) =
        HLSFileResponse.ranged
          { code := 206, contentRange := mkContentRange a b bytes.length,
            acceptRanges := acceptRangesValue, contentLength := b - a + 1,
            contentType := mp2tType, cacheControl := segmentCacheValue,
            body := (bytes.drop a).take (b - a + 1) } ∧
      (∀ c, b < c → c < bytes.length →
        createReadStreamRange bytes a b ++ createReadStreamRange bytes (b + 1) c =
          createReadStreamRange bytes a c) ∧
      createReadStreamRange bytes 0 (bytes.length - 1) = bytes := by
  intro r id file s bytes hdr a b hget hts hparse hab hblt
  refine ⟨?_, ?_, ?_⟩
  · unfold getHLSFileEndpoint
    rw [hget]
    dsimp only
    rw [hts, if_pos rfl, hparse]
    rfl
  · intro c hc1 hc2
    unfold createReadStreamRange
    have hd : (bytes.drop a).drop (b - a + 1) = bytes.drop (b + 1) := by
      rw [List.drop_drop]
      congr 1
      omega
    rw [← hd, ← List.take_add]
    congr 1
    omega
  · unfold createReadStreamRange
    rw [List.drop_zero, Nat.sub_zero]
    have hlen : bytes.length - 1 + 1 = bytes.length := by omega
    rw [hlen, List.take_length]

/-- Segment bytes for the C7 witness. -/
def wBytes : Bytes := [10, 20, 30, 40, 50]

/-- Segment file name for the C7 witness. -/
def wSegName : String := "segment000.ts"

/-- Range header for the C7 witness. -/
def wRangeHdr : String := "bytes=0-3"

/-- Closed witness for C7: the concrete header bytes=0-3 on a 5-byte
segment of a ready stream, with the slices evaluated. -/
theorem hls_segment_range_request_witness :
    getHLSFileEndpoint wReg6r wId wSegName (some wBytes) (some wRangeHdr) =
      HLSFileResponse.ranged
        { code := 206, contentRange := mkContentRange 0 3 wBytes.length,
          acceptRanges := acceptRangesValue, contentLength := 3 - 0 + 1,
          contentType := mp2tType, cacheControl := segmentCacheValue,
          body := (wBytes.drop 0).take (3 - 0 + 1) } ∧
    createReadStreamRange wBytes 0 3 ++ createReadStreamRange wBytes 4 4 =
      createReadStreamRange wBytes 0 4 ∧
    createReadStreamRange wBytes 0 (wBytes.length - 1) = wBytes ∧
    createReadStreamRange wBytes 0 3 = [10, 20, 30, 40] := by
  obtain ⟨h1, h2, h3⟩ :=
    hls_segment_range_request wReg6r wId wSegName
      { mkW0 with status := Status.ready } wBytes wRangeHdr 0 3
      (by decide) (by decide) (by decide) (by decide) (by decide)
  exact ⟨h1, h2 4 (by omega) (by decide), h3, by decide⟩

/-! Claim C9: the re-encode progress handler calls a method the
StreamManager does not define (convertToHLSWithEncoding progress
handler, src/services/ffmpegService.js lines 227-233 and
src/services/fileService.js lines 573-579; StreamManager class,
src/services/streamManager.js lines 1-145). -/

/-- The method names defined by the StreamManager class
(src/services/streamManager.js lines 1-145). -/
def streamManagerMethods : List String :=
  ["createStream", "getStream", "getAllStreams", "updateStreamStatus",
   "updateStreamProgress", "removeStream", "getStreamsByStatus", "getOldStreams",
   "cleanupOldStreams", "getStats", "streamExists", "getStreamWithFallback",
   "keepStreamAlive"]

/-- The method name the re-encode progress handler invokes. -/
def ffmpegProgressMethodName : String := "updateFFmpegProgress"

/-- Outcome of a JS method call on the streamManager object: calling a
property that is not a defined method raises a TypeError. -/
inductive JsCallResult where
  | returned
  | typeErrorRaised
deriving DecidableEq, Repr

/-- Dynamic method dispatch on the streamManager singleton. -/
def callStreamManagerMethod (name : String) : JsCallResult :=
  if streamManagerMethods.contains name then JsCallResult.returned
  else JsCallResult.typeErrorRaised

/-- The command.on progress handler of convertToHLSWithEncoding
(src/services/ffmpegService.js lines 227-233): when progress.percent is
truthy (present and nonzero) it invokes
streamManager.updateFFmpegProgress; otherwise the handler body is
skipped. none means no call was made. -/
def reencodeProgressHandler (percent : Option Int) : Option JsCallResult :=
  match percent with
  | some p => if p ≠ 0 then some (callStreamManagerMethod ffmpegProgressMethodName) else none
  | none => none

/-- C9: the StreamManager defines no updateFFmpegProgress method, so
every re-encode progress event carrying a truthy percent value makes the
handler raise a TypeError instead of recording the percentage. -/
theorem reencode_progress_handler_type_error :
    streamManagerMethods.contains ffmpegProgressMethodName = false ∧
    (∀ p : Int, p ≠ 0 →
      reencodeProgressHandler (some p) = some JsCallResult.typeErrorRaised) := by
  constructor
  · decide
  · intro p hp
    unfold reencodeProgressHandler
    dsimp only
    rw [if_pos hp]
    rfl

/-- Closed witness for C9 at the concrete percentage 57. -/
theorem reencode_progress_handler_type_error_witness :
    reencodeProgressHandler (some 57) = some JsCallResult.typeErrorRaised :=
  reencode_progress_handler_type_error.2 57 (by decide)

end PlayGateway
